import Mathlib

/-!
# retro-pico-switch: report packing, input providers, adapters and the transport dispatcher

A shallow embedding of

* `lib/switch_controller_pico/example.cpp` (`SimpleButtonInput`),
* `lib/switch_controller_pico/auto_press_example.cpp` (`AutoPressInput`),
* `src/main.cpp` (`ControllerAdapter`),
* `lib/switch_controller_pico/src/switch_controller_pico.cpp` and
  `include/switch_controller_pico.h` (`SwitchInputAdapter`, `SwitchControllerPico`).

Bytes (`uint8_t`) and 16/32-bit values are natural numbers; a store into a
`uint8_t` field is written `% 256`, a `uint32_t` subtraction is taken modulo `2 ^ 32`.
-/

namespace RetroPicoSwitch

/-! ## The report -/

/-- A three-byte array (`uint8_t[3]`), as used for `buttons`, `l` and `r`. -/
structure Bytes3 where
  b0 : Nat
  b1 : Nat
  b2 : Nat
  deriving DecidableEq, Repr

/-- The `SwitchReport` structure as described in `switch_controller_pico.h`:
`batteryConnection`, `buttons[3]`, `l[3]`, `r[3]`. -/
structure SwitchReport where
  batteryConnection : Nat
  buttons : Bytes3
  l : Bytes3
  r : Bytes3
  deriving DecidableEq, Repr

/-! ## Stick packing -/

/-- The three assignments that pack one stick, shared verbatim by both input providers
(`example.cpp` lines 122-128, `auto_press_example.cpp` lines 61-68):
```
l[0] = X & 0xFF;
l[1] = ((X >> 8) & 0x0F) | ((Y & 0x0F) << 4);
l[2] = (Y >> 4) & 0xFF;
```
`X` and `Y` are `uint16_t`; the right-hand sides are computed in `int` and stored
into `uint8_t`. -/
def packStick (X Y : Nat) : Bytes3 :=
  { b0 := (X &&& 0xFF) % 256
    b1 := (((X >>> 8) &&& 0x0F) ||| ((Y &&& 0x0F) <<< 4)) % 256
    b2 := ((Y >>> 4) &&& 0xFF) % 256 }

/-- Modelled from the spec: `decodeSticks` for one stick. The repository has no
decoder; this is the unpacking written in the round-trip law,
`x' = b0 | ((b1 & 0x0F) << 8)`, `y' = (b1 >> 4) | (b2 << 4)`. -/
def unpackStick (b : Bytes3) : Nat × Nat :=
  (b.b0 ||| ((b.b1 &&& 0x0F) <<< 8), (b.b1 >>> 4) ||| (b.b2 <<< 4))

/-! ## Input providers -/

/-- The statement `b |= m` on a `uint8_t`. -/
def orByte (b m : Nat) : Nat := (b ||| m) % 256

/-! GPIO pin numbers of `example.cpp`. -/

def PIN_BUTTON_A : Nat := 2
def PIN_BUTTON_B : Nat := 3
def PIN_BUTTON_X : Nat := 4
def PIN_BUTTON_Y : Nat := 5
def PIN_BUTTON_L : Nat := 6
def PIN_BUTTON_R : Nat := 7
def PIN_BUTTON_START : Nat := 8
def PIN_JOYSTICK_UP : Nat := 9
def PIN_JOYSTICK_DOWN : Nat := 10
def PIN_JOYSTICK_LEFT : Nat := 11
def PIN_JOYSTICK_RIGHT : Nat := 12

/-- The method `SimpleButtonInput::getSwitchReport` (`example.cpp`). The hardware read `gpio_get`
is a parameter; `report` is the caller's buffer and the result is its content on
return. Statements are kept in source order. -/
def SimpleButtonInput.getSwitchReport (gpio_get : Nat → Bool) (report : SwitchReport) :
    SwitchReport :=
  let batteryConnection := 0x91
  let buttons0 := 0x00
  let buttons1 := 0x00
  let buttons2 := 0x00
  -- Byte 0: Y, X, B, A, (unused), (unused), R, ZR
  let buttons0 := if gpio_get PIN_BUTTON_Y then orByte buttons0 0x01 else buttons0
  let buttons0 := if gpio_get PIN_BUTTON_X then orByte buttons0 0x02 else buttons0
  let buttons0 := if gpio_get PIN_BUTTON_B then orByte buttons0 0x04 else buttons0
  let buttons0 := if gpio_get PIN_BUTTON_A then orByte buttons0 0x08 else buttons0
  let buttons0 := if gpio_get PIN_BUTTON_R then orByte buttons0 0x40 else buttons0
  let buttons0 := if gpio_get PIN_BUTTON_R then orByte buttons0 0x80 else buttons0
  -- Byte 1: Plus (Start)
  let buttons1 := if gpio_get PIN_BUTTON_START then orByte buttons1 0x02 else buttons1
  -- Byte 2: L, ZL
  let buttons2 := if gpio_get PIN_BUTTON_L then orByte buttons2 0x40 else buttons2
  let buttons2 := if gpio_get PIN_BUTTON_L then orByte buttons2 0x80 else buttons2
  let leftX := 0x7FF
  let leftY := 0x7FF
  let rightX := 0x7FF
  let rightY := 0x7FF
  let leftX := if gpio_get PIN_JOYSTICK_LEFT then 0x000 else leftX
  let leftX := if gpio_get PIN_JOYSTICK_RIGHT then 0xFFF else leftX
  let leftY := if gpio_get PIN_JOYSTICK_UP then 0xFFF else leftY
  let leftY := if gpio_get PIN_JOYSTICK_DOWN then 0x000 else leftY
  { report with
    batteryConnection := batteryConnection
    buttons := { b0 := buttons0, b1 := buttons1, b2 := buttons2 }
    l := packStick leftX leftY
    r := packStick rightX rightY }

/-- The private state of `AutoPressInput` (`auto_press_example.cpp`). -/
structure AutoPressInput where
  _lastPressTime : Nat
  _buttonPressed : Bool
  deriving DecidableEq, Repr

/-- The constructor `AutoPressInput() : _lastPressTime(0), _buttonPressed(false)`. -/
def AutoPressInput.new : AutoPressInput :=
  { _lastPressTime := 0, _buttonPressed := false }

def AutoPressInput.PRESS_INTERVAL_MS : Nat := 5000
def AutoPressInput.PRESS_DURATION_MS : Nat := 100

/-- Subtraction of two `uint32_t` values. -/
def sub32 (a b : Nat) : Nat := (a % 2 ^ 32 + (2 ^ 32 - b % 2 ^ 32)) % 2 ^ 32

/-- The method `AutoPressInput::getSwitchReport`. `currentTime` is the value read from
`to_ms_since_boot(get_absolute_time())`; the result is the updated object and the
content of the caller's buffer on return. The `printf` lines are console output only
and are left out. -/
def AutoPressInput.getSwitchReport (currentTime : Nat) (self : AutoPressInput)
    (report : SwitchReport) : AutoPressInput × SwitchReport :=
  let batteryConnection := 0x91
  let buttons0 := 0x00
  let buttons1 := 0x00
  let buttons2 := 0x00
  let (self, buttons0) :=
    if self._buttonPressed then
      if sub32 currentTime self._lastPressTime ≥ AutoPressInput.PRESS_DURATION_MS then
        ({ self with _buttonPressed := false }, buttons0)
      else
        (self, orByte buttons0 0x08)
    else
      if sub32 currentTime self._lastPressTime ≥ AutoPressInput.PRESS_INTERVAL_MS then
        ({ self with _buttonPressed := true, _lastPressTime := currentTime },
          orByte buttons0 0x08)
      else
        (self, buttons0)
  let centerX := 0x7FF
  let centerY := 0x7FF
  (self,
    { report with
      batteryConnection := batteryConnection
      buttons := { b0 := buttons0, b1 := buttons1, b2 := buttons2 }
      l := packStick centerX centerY
      r := packStick centerX centerY })

/-! ## The button table -/

/-- The buttons named in the comments of the input providers. -/
inductive Button where
  | Y | X | B | A | R | ZR | Plus | L | ZL
  deriving DecidableEq, Repr

/-- All named buttons, in source order. -/
def Button.all : List Button :=
  [.Y, .X, .B, .A, .R, .ZR, .Plus, .L, .ZL]

/-- Index into `buttons[3]` of the byte a button lives in (`example.cpp` lines 91-105). -/
def Button.index : Button → Nat
  | .Y | .X | .B | .A | .R | .ZR => 0
  | .Plus => 1
  | .L | .ZL => 2

/-- Mask or-ed into that byte (`example.cpp` lines 91-105; `A` also
`auto_press_example.cpp` lines 43 and 50). -/
def Button.mask : Button → Nat
  | .Y => 0x01
  | .X => 0x02
  | .B => 0x04
  | .A => 0x08
  | .R => 0x40
  | .ZR => 0x80
  | .Plus => 0x02
  | .L => 0x40
  | .ZL => 0x80

/-- GPIO pin that `SimpleButtonInput` reads for a button. -/
def Button.pin : Button → Nat
  | .Y => PIN_BUTTON_Y
  | .X => PIN_BUTTON_X
  | .B => PIN_BUTTON_B
  | .A => PIN_BUTTON_A
  | .R | .ZR => PIN_BUTTON_R
  | .Plus => PIN_BUTTON_START
  | .L | .ZL => PIN_BUTTON_L

/-- Byte `i` of the button field obtained by or-ing, in table order, the masks of the
buttons of byte `i` whose pin reads high. -/
def tableByte (gpio_get : Nat → Bool) (i : Nat) : Nat :=
  Button.all.foldl
    (fun acc k => if k.index = i ∧ gpio_get k.pin = true then orByte acc k.mask else acc) 0

/-! ## Virtual interfaces and adapters -/

/-- The pure virtual methods of `SwitchInputProvider` (`switch_controller_pico.h`).
`σ` is everything an implementation may read and write: its own fields and what they
point to. `getSwitchReport` takes the content of the caller's buffer and returns its
content on return. -/
structure SwitchInputProvider (σ : Type) where
  getSwitchReport : SwitchReport → σ → SwitchReport × σ
  setRumble : Bool → σ → σ

/-- The virtual methods of the legacy `Controller` class that `main.cpp` and
`SwitchInputAdapter` use: `init`, `getSwitchReport`, `setRumble`. -/
structure Controller (σ : Type) where
  init : σ → σ
  getSwitchReport : SwitchReport → σ → SwitchReport × σ
  setRumble : Bool → σ → σ

/-- The `class ControllerAdapter` of `main.cpp`: one field, the wrapped controller. -/
structure ControllerAdapter (σ : Type) where
  _controller : Controller σ

/-- The method `ControllerAdapter::getSwitchReport`: `_controller->getSwitchReport(switchReport);` -/
def ControllerAdapter.getSwitchReport {σ : Type} (self : ControllerAdapter σ)
    (switchReport : SwitchReport) (st : σ) : SwitchReport × σ :=
  self._controller.getSwitchReport switchReport st

/-- The method `ControllerAdapter::setRumble`: `_controller->setRumble(rumble);` -/
def ControllerAdapter.setRumble {σ : Type} (self : ControllerAdapter σ)
    (rumble : Bool) (st : σ) : σ :=
  self._controller.setRumble rumble st

/-- A `ControllerAdapter` seen through its base class `SwitchInputProvider`. -/
def ControllerAdapter.toSwitchInputProvider {σ : Type} (self : ControllerAdapter σ) :
    SwitchInputProvider σ :=
  { getSwitchReport := self.getSwitchReport
    setRumble := self.setRumble }

/-- The `class SwitchInputAdapter` of `switch_controller_pico.h`: one field of its own,
`_provider`; its `Controller` base is built from dummy parameters and never used. -/
structure SwitchInputAdapter (σ : Type) where
  _provider : SwitchInputProvider σ

/-- The method `SwitchInputAdapter::getSwitchReport`: `_provider->getSwitchReport(switchReport);` -/
def SwitchInputAdapter.getSwitchReport {σ : Type} (self : SwitchInputAdapter σ)
    (switchReport : SwitchReport) (st : σ) : SwitchReport × σ :=
  self._provider.getSwitchReport switchReport st

/-- The method `SwitchInputAdapter::setRumble`: `_provider->setRumble(rumble);` -/
def SwitchInputAdapter.setRumble {σ : Type} (self : SwitchInputAdapter σ)
    (rumble : Bool) (st : σ) : σ :=
  self._provider.setRumble rumble st

/-- A `SwitchInputAdapter` seen through its base class `Controller`;
`void init() override {}`. -/
def SwitchInputAdapter.toController {σ : Type} (self : SwitchInputAdapter σ) :
    Controller σ :=
  { init := fun st => st
    getSwitchReport := self.getSwitchReport
    setRumble := self.setRumble }

/-- A stub legacy controller: `getSwitchReport` writes `R` into the caller's buffer,
`setRumble` appends its argument to the list of rumble calls received so far (the
state `σ`). -/
def stubController (R : SwitchReport) : Controller (List Bool) :=
  { init := fun calls => calls
    getSwitchReport := fun _ calls => (R, calls)
    setRumble := fun rumble calls => calls ++ [rumble] }

/-- The class `SimpleButtonInput` as a `SwitchInputProvider`; the state it reads is the level of
the GPIO pins, and its `setRumble` has an empty body. -/
def SimpleButtonInput.toSwitchInputProvider : SwitchInputProvider (Nat → Bool) :=
  { getSwitchReport := fun report gpio_get =>
      (SimpleButtonInput.getSwitchReport gpio_get report, gpio_get)
    setRumble := fun _ gpio_get => gpio_get }

/-! ## The transport dispatcher -/

/-- The `enum SwitchControllerPico::Mode`. -/
inductive Mode where
  | USB
  | BLUETOOTH
  deriving DecidableEq, Repr

/-- The dynamic type of the object `_switchCommon` points to: `new SwitchUsb()` or
`new SwitchBluetooth()`. -/
inductive SwitchCommon where
  | SwitchUsb
  | SwitchBluetooth
  deriving DecidableEq, Repr

/-- Build configuration: whether the preprocessor symbol `SWITCH_BLUETOOTH` is defined. -/
structure Build where
  SWITCH_BLUETOOTH : Bool
  deriving DecidableEq, Repr

/-- Calls that leave the dispatcher: `_switchCommon->init(&adapter)` on a transport of
the given kind (`registered` tells whether the transport stack's device registration
inside that call succeeded; the call returns `void`), and `tud_task()`. -/
inductive Call where
  | SwitchCommon_init (transport : SwitchCommon) (registered : Bool)
  | tud_task
  deriving DecidableEq, Repr

/-- Ways a dispatcher call could end other than by returning. The source has no
`throw`, no status result and no assertion, so nothing below constructs one; the type
is there so that "returns normally" is a statement about the result. -/
inductive DispatcherError where
  | UsageError
  | TransportInitError
  deriving DecidableEq, Repr

/-- Whether a call ended by signalling an error. -/
def signalsError {ε α : Type} : Except ε α → Bool
  | .error _ => true
  | .ok _ => false

/-- The fields of `class SwitchControllerPico`; `none` is `nullptr`. -/
structure SwitchControllerPico (σ : Type) where
  _inputProvider : SwitchInputProvider σ
  _switchCommon : Option SwitchCommon
  _mode : Mode

/-- State outside the dispatcher object: the function-local
`static SwitchInputAdapter adapter` of `init()` (`none` until `init()` first runs) and
the external calls made so far. -/
structure World (σ : Type) where
  adapter : Option (SwitchInputAdapter σ)
  calls : List Call

/-- The world at program start. -/
def World.boot {σ : Type} : World σ :=
  { adapter := none, calls := [] }

/-- The constructor: `_inputProvider(inputProvider), _mode(mode), _switchCommon(nullptr)`. -/
def SwitchControllerPico.new {σ : Type} (inputProvider : SwitchInputProvider σ)
    (mode : Mode) : SwitchControllerPico σ :=
  { _inputProvider := inputProvider, _mode := mode, _switchCommon := none }

/-- The accessor `getSwitchCommon()`: `return _switchCommon;` -/
def SwitchControllerPico.getSwitchCommon {σ : Type} (self : SwitchControllerPico σ) :
    Option SwitchCommon :=
  self._switchCommon

/-- The accessor `getMode()`: `return _mode;` -/
def SwitchControllerPico.getMode {σ : Type} (self : SwitchControllerPico σ) : Mode :=
  self._mode

/-- The method `SwitchControllerPico::init`. The static adapter is constructed from
`_inputProvider` the first time control passes its declaration; the transport object is
chosen by `#ifdef SWITCH_BLUETOOTH` and, inside it, by `_mode`; then
`_switchCommon->init(&adapter)` is called and its outcome is not inspected. -/
def SwitchControllerPico.init {σ : Type} (build : Build) (registered : Bool)
    (self : SwitchControllerPico σ) (w : World σ) :
    Except DispatcherError (SwitchControllerPico σ × World σ) :=
  let adapter : SwitchInputAdapter σ :=
    match w.adapter with
    | some a => a
    | none => { _provider := self._inputProvider }
  let transport : SwitchCommon :=
    if build.SWITCH_BLUETOOTH then
      if self._mode = Mode.BLUETOOTH then SwitchCommon.SwitchBluetooth
      else SwitchCommon.SwitchUsb
    else
      SwitchCommon.SwitchUsb
  let self := { self with _switchCommon := some transport }
  .ok (self,
    { adapter := some adapter
      calls := w.calls ++ [Call.SwitchCommon_init transport registered] })

/-- The method `SwitchControllerPico::update`: under `#ifndef SWITCH_BLUETOOTH` it calls
`tud_task()`, otherwise its body is empty. -/
def SwitchControllerPico.update {σ : Type} (build : Build)
    (self : SwitchControllerPico σ) (w : World σ) :
    Except DispatcherError (SwitchControllerPico σ × World σ) :=
  if !build.SWITCH_BLUETOOTH then
    .ok (self, { w with calls := w.calls ++ [Call.tud_task] })
  else
    .ok (self, w)

/-- A call made by the application on its dispatcher. -/
inductive Op where
  | init (registered : Bool)
  | update
  deriving DecidableEq, Repr

/-- One application call. -/
def step {σ : Type} (build : Build) (op : Op) (s : SwitchControllerPico σ × World σ) :
    Except DispatcherError (SwitchControllerPico σ × World σ) :=
  match op with
  | .init registered => s.1.init build registered s.2
  | .update => s.1.update build s.2

/-- A finite sequence of application calls, stopping at the first error. -/
def run {σ : Type} (build : Build) :
    List Op → SwitchControllerPico σ × World σ →
      Except DispatcherError (SwitchControllerPico σ × World σ)
  | [], s => .ok s
  | op :: ops, s =>
    match step build op s with
    | .ok s' => run build ops s'
    | .error e => .error e

/-- Number of `tud_task()` calls made so far. -/
def tudTaskCount {σ : Type} (w : World σ) : Nat :=
  w.calls.count Call.tud_task

/-! ## Runs of `AutoPressInput` -/

/-- One call of `AutoPressInput::getSwitchReport` seen from outside: the time it read,
the object before and after the call, and the report it left in the caller's buffer. -/
structure AutoPressCall where
  time : Nat
  before : AutoPressInput
  after : AutoPressInput
  report : SwitchReport
  deriving DecidableEq, Repr

/-- The successive calls of `getSwitchReport` on one `AutoPressInput` object. Each entry
of the argument list is one call: the time it reads and the prior content of the
caller's buffer. -/
def AutoPressInput.trace :
    List (Nat × SwitchReport) → AutoPressInput → List AutoPressCall
  | [], _ => []
  | c :: cs, self =>
    { time := c.1
      before := self
      after := (AutoPressInput.getSwitchReport c.1 self c.2).1
      report := (AutoPressInput.getSwitchReport c.1 self c.2).2 } ::
      AutoPressInput.trace cs (AutoPressInput.getSwitchReport c.1 self c.2).1

/-- A press of A begins at this call: not pressed before it, pressed after it. -/
def AutoPressCall.pressBegins (e : AutoPressCall) : Bool :=
  !e.before._buttonPressed && e.after._buttonPressed

/-- The report of this call has the A bit (`0x08` of `buttons[0]`) set. -/
def AutoPressCall.aBitSet (e : AutoPressCall) : Bool :=
  e.report.buttons.b0 &&& 0x08 == 0x08

/-- A sample run: calls at 0, 5000, 5050, 5100 and 10100 ms, each on a zeroed buffer. -/
def AutoPressInput.sampleCalls : List (Nat × SwitchReport) :=
  [0, 5000, 5050, 5100, 10100].map
    (fun t => (t, { batteryConnection := 0, buttons := ⟨0, 0, 0⟩, l := ⟨0, 0, 0⟩,
                    r := ⟨0, 0, 0⟩ }))

/-! ### Arithmetic form of the packing -/

theorem and_0xFF (n : Nat) : n &&& 0xFF = n % 256 :=
  Nat.and_pow_two_sub_one_eq_mod n 8

theorem and_0x0F (n : Nat) : n &&& 0x0F = n % 16 :=
  Nat.and_pow_two_sub_one_eq_mod n 4

/-- A low nibble or-ed with a nibble shifted into the high half is their sum. -/
theorem nibble_or (a c : Nat) (ha : a < 16) : a ||| (c <<< 4) = a + 16 * c := by
  have h := Nat.mul_add_lt_is_or (i := 4) (b := a) (by simpa using ha) c
  rw [Nat.shiftLeft_eq, Nat.or_comm]
  have e : c * 2 ^ 4 = 2 ^ 4 * c := Nat.mul_comm _ _
  rw [e, ← h]
  norm_num
  omega

/-- A low byte or-ed with a value shifted past it is their sum. -/
theorem byte_or (a c : Nat) (ha : a < 256) : a ||| (c <<< 8) = a + 256 * c := by
  have h := Nat.mul_add_lt_is_or (i := 8) (b := a) (by simpa using ha) c
  rw [Nat.shiftLeft_eq, Nat.or_comm]
  have e : c * 2 ^ 8 = 2 ^ 8 * c := Nat.mul_comm _ _
  rw [e, ← h]
  norm_num
  omega

theorem packStick_b0 (X Y : Nat) : (packStick X Y).b0 = X % 256 := by
  simp only [packStick, and_0xFF]
  omega

theorem packStick_b1 (X Y : Nat) :
    (packStick X Y).b1 = (X / 256) % 16 + 16 * (Y % 16) := by
  simp only [packStick, and_0x0F, Nat.shiftRight_eq_div_pow]
  rw [nibble_or _ _ (Nat.mod_lt _ (by decide))]
  norm_num
  omega

theorem packStick_b2 (X Y : Nat) : (packStick X Y).b2 = (Y / 16) % 256 := by
  simp only [packStick, and_0xFF, Nat.shiftRight_eq_div_pow]
  norm_num

theorem unpackStick_fst (b : Bytes3) (h0 : b.b0 < 256) :
    (unpackStick b).1 = b.b0 + 256 * (b.b1 % 16) := by
  simp only [unpackStick, and_0x0F]
  exact byte_or _ _ h0

theorem unpackStick_snd (b : Bytes3) (h1 : b.b1 < 256) :
    (unpackStick b).2 = b.b1 / 16 + 16 * b.b2 := by
  simp only [unpackStick, Nat.shiftRight_eq_div_pow]
  have h : b.b1 / 2 ^ 4 < 16 := by norm_num; omega
  rw [nibble_or _ _ h]
  norm_num

/-- Round trip on the 12-bit range, in arithmetic form. -/
theorem unpack_pack (x y : Nat) (hx : x ≤ 4095) (hy : y ≤ 4095) :
    unpackStick (packStick x y) = (x, y) := by
  have e0 := packStick_b0 x y
  have e1 := packStick_b1 x y
  have e2 := packStick_b2 x y
  have f := unpackStick_fst (packStick x y) (by omega)
  have g := unpackStick_snd (packStick x y) (by omega)
  apply Prod.ext
  · show (unpackStick (packStick x y)).1 = x
    omega
  · show (unpackStick (packStick x y)).2 = y
    norm_num at g
    omega

/-- Claim C1. For every stick position `(x, y)` with `0 ≤ x ≤ 4095` and `0 ≤ y ≤ 4095`,
packing it into three bytes as the input providers do and then unpacking with
`x' = b0 | ((b1 & 0x0F) << 8)`, `y' = (b1 >> 4) | (b2 << 4)` gives back `(x, y)`;
consequently two positions of the 12-bit range with the same three bytes are equal. -/
theorem stick_roundtrip (x y : Nat) (hx : x ≤ 4095) (hy : y ≤ 4095) :
    unpackStick (packStick x y) = (x, y) ∧
    ∀ x' y' : Nat, x' ≤ 4095 → y' ≤ 4095 →
      packStick x y = packStick x' y' → x = x' ∧ y = y' := by
  refine ⟨unpack_pack x y hx hy, ?_⟩
  intro x' y' hx' hy' h
  have e := unpack_pack x y hx hy
  rw [h, unpack_pack x' y' hx' hy'] at e
  exact ⟨(congrArg Prod.fst e).symm, (congrArg Prod.snd e).symm⟩

/-- Witness for `stick_roundtrip` at the stick position `(0xABC, 0x123)`. -/
theorem stick_roundtrip_witness :
    (0xABC ≤ 4095 ∧ 0x123 ≤ 4095) ∧
    (unpackStick (packStick 0xABC 0x123) = (0xABC, 0x123) ∧
      ∀ x' y' : Nat, x' ≤ 4095 → y' ≤ 4095 →
        packStick 0xABC 0x123 = packStick x' y' → 0xABC = x' ∧ 0x123 = y') :=
  ⟨by decide, stick_roundtrip 0xABC 0x123 (by decide) (by decide)⟩

/-! ### Centre position -/

/-- Both providers pack the centre `0x7FF` into `FF F7 7F`. -/
theorem packStick_center : packStick 0x7FF 0x7FF = ⟨0xFF, 0xF7, 0x7F⟩ := by decide

theorem AutoPressInput_sticks (currentTime : Nat) (self : AutoPressInput)
    (report : SwitchReport) :
    (AutoPressInput.getSwitchReport currentTime self report).2.l = packStick 0x7FF 0x7FF ∧
    (AutoPressInput.getSwitchReport currentTime self report).2.r = packStick 0x7FF 0x7FF := by
  unfold AutoPressInput.getSwitchReport
  constructor <;> rfl

theorem SimpleButtonInput_right_stick (gpio_get : Nat → Bool) (report : SwitchReport) :
    (SimpleButtonInput.getSwitchReport gpio_get report).r = packStick 0x7FF 0x7FF := rfl

/-- Claim C2, as stated, is refuted. The report of a freshly constructed `AutoPressInput`
(both sticks at the centre `2047`) does not carry `FF 07 7F FF 07 7F` in `l`, `r`. -/
theorem center_bytes_counterexample :
    ¬ (((AutoPressInput.getSwitchReport 0 AutoPressInput.new ⟨0, ⟨0, 0, 0⟩, ⟨0, 0, 0⟩, ⟨0, 0, 0⟩⟩).2.l,
        (AutoPressInput.getSwitchReport 0 AutoPressInput.new ⟨0, ⟨0, 0, 0⟩, ⟨0, 0, 0⟩, ⟨0, 0, 0⟩⟩).2.r)
        = ((⟨0xFF, 0x07, 0x7F⟩ : Bytes3), (⟨0xFF, 0x07, 0x7F⟩ : Bytes3))) := by
  decide

/-- Claim C2, amended. Packing both sticks at the centre position `2047 = 0x7FF` yields
exactly the six bytes `FF F7 7F FF F7 7F` in `l[0..2]`, `r[0..2]`: this is what
`packStick` gives, what `AutoPressInput` writes at every call, and what
`SimpleButtonInput` writes when no joystick pin reads high. -/
theorem center_bytes :
    packStick 2047 2047 = ⟨0xFF, 0xF7, 0x7F⟩ ∧
    (∀ (currentTime : Nat) (self : AutoPressInput) (report : SwitchReport),
      (AutoPressInput.getSwitchReport currentTime self report).2.l = ⟨0xFF, 0xF7, 0x7F⟩ ∧
      (AutoPressInput.getSwitchReport currentTime self report).2.r = ⟨0xFF, 0xF7, 0x7F⟩) ∧
    (∀ report : SwitchReport,
      (SimpleButtonInput.getSwitchReport (fun _ => false) report).l = ⟨0xFF, 0xF7, 0x7F⟩ ∧
      (SimpleButtonInput.getSwitchReport (fun _ => false) report).r = ⟨0xFF, 0xF7, 0x7F⟩) := by
  refine ⟨by decide, ?_, ?_⟩
  · intro t self report
    have h := AutoPressInput_sticks t self report
    rw [packStick_center] at h
    exact h
  · intro report
    have hl : (SimpleButtonInput.getSwitchReport (fun _ => false) report).l
        = packStick 0x7FF 0x7FF := rfl
    have hr := SimpleButtonInput_right_stick (fun _ => false) report
    rw [packStick_center] at hl hr
    exact ⟨hl, hr⟩

/-! ### Out-of-range axis values -/

theorem Bytes3.eq_of_fields {a b : Bytes3} (h0 : a.b0 = b.b0) (h1 : a.b1 = b.b1)
    (h2 : a.b2 = b.b2) : a = b := by
  cases a
  cases b
  simp only [Bytes3.mk.injEq]
  exact ⟨h0, h1, h2⟩

/-- Claim C3, as stated, is refuted. The bytes produced for `x = 5000` are not the bytes
produced for `x = 4095`, and likewise for an out-of-range `y`. -/
theorem clamp_counterexample :
    packStick 5000 0 ≠ packStick 4095 0 ∧ packStick 0 5000 ≠ packStick 0 4095 := by
  decide

/-- Claim C3, amended. The stick packing does not clamp; it keeps the low 12 bits of each
axis. For every `x` and `y` (in particular every 16-bit value above `4095`) the bytes
produced for `(x, y)` equal the bytes produced for `(x mod 4096, y mod 4096)`; the
packing is a total function, so no input is rejected. -/
theorem packStick_low12 (x y : Nat) :
    packStick x y = packStick (x % 4096) (y % 4096) := by
  apply Bytes3.eq_of_fields
  · rw [packStick_b0, packStick_b0]
    omega
  · rw [packStick_b1, packStick_b1]
    omega
  · rw [packStick_b2, packStick_b2]
    omega

/-! ### Button table -/

/-- The button bytes written by `SimpleButtonInput` are those of the table. -/
theorem SimpleButtonInput_buttons (gpio_get : Nat → Bool) (report : SwitchReport) :
    (SimpleButtonInput.getSwitchReport gpio_get report).buttons =
      ⟨tableByte gpio_get 0, tableByte gpio_get 1, tableByte gpio_get 2⟩ := by
  simp only [SimpleButtonInput.getSwitchReport, tableByte, Button.all, List.foldl,
    Button.index, Button.pin, Button.mask]
  cases gpio_get PIN_BUTTON_Y <;> cases gpio_get PIN_BUTTON_X <;>
    cases gpio_get PIN_BUTTON_B <;> cases gpio_get PIN_BUTTON_A <;>
    cases gpio_get PIN_BUTTON_R <;> cases gpio_get PIN_BUTTON_START <;>
    cases gpio_get PIN_BUTTON_L <;> decide

/-- Claim C10. In the button table used by the input providers (Y, X, B, A, R, ZR in
`buttons[0]`; Plus in `buttons[1]`; L, ZL in `buttons[2]`) every named button lives in
one of the three bytes, its mask has exactly one bit set (`mask = 2 ^ n` for one
`n < 8`), and two distinct named buttons never share byte index and bit: they differ
in byte index or their masks have no bit in common. -/
theorem button_table_no_alias :
    (∀ k : Button, k.index < 3 ∧ ∃ n, n < 8 ∧ k.mask = 2 ^ n ∧
        ∀ m, k.mask = 2 ^ m → m = n) ∧
    (∀ j k : Button, j ≠ k →
        ¬ (j.index = k.index ∧ j.mask = k.mask) ∧
        (j.index = k.index → j.mask &&& k.mask = 0)) := by
  constructor
  · intro k
    have inj : ∀ (n m : Nat), 2 ^ n = 2 ^ m → m = n := fun n m h =>
      (Nat.pow_right_injective (le_refl 2) h).symm
    cases k
    · exact ⟨by decide, 0, by decide, by decide, inj 0⟩
    · exact ⟨by decide, 1, by decide, by decide, inj 1⟩
    · exact ⟨by decide, 2, by decide, by decide, inj 2⟩
    · exact ⟨by decide, 3, by decide, by decide, inj 3⟩
    · exact ⟨by decide, 6, by decide, by decide, inj 6⟩
    · exact ⟨by decide, 7, by decide, by decide, inj 7⟩
    · exact ⟨by decide, 1, by decide, by decide, inj 1⟩
    · exact ⟨by decide, 6, by decide, by decide, inj 6⟩
    · exact ⟨by decide, 7, by decide, by decide, inj 7⟩
  · intro j k hjk
    cases j <;> cases k <;> first
      | exact absurd rfl hjk
      | exact ⟨by decide, by decide⟩

/-! ### Adapters -/

/-- The `ControllerAdapter` forwards both methods unchanged, for any wrapped controller. -/
theorem ControllerAdapter_forwards {σ : Type} (c : Controller σ) (out : SwitchReport)
    (rumble : Bool) (st : σ) :
    (ControllerAdapter.mk c).toSwitchInputProvider.getSwitchReport out st
        = c.getSwitchReport out st ∧
    (ControllerAdapter.mk c).toSwitchInputProvider.setRumble rumble st
        = c.setRumble rumble st :=
  ⟨rfl, rfl⟩

/-- The `SwitchInputAdapter` forwards both methods unchanged, for any wrapped provider. -/
theorem SwitchInputAdapter_forwards {σ : Type} (p : SwitchInputProvider σ)
    (out : SwitchReport) (rumble : Bool) (st : σ) :
    (SwitchInputAdapter.mk p).toController.getSwitchReport out st
        = p.getSwitchReport out st ∧
    (SwitchInputAdapter.mk p).toController.setRumble rumble st = p.setRumble rumble st :=
  ⟨rfl, rfl⟩

/-- On a world where `init()` has not run yet, `init()` builds its static adapter
around the dispatcher's own input provider. -/
theorem init_boot_adapter {σ : Type} (build : Build) (registered : Bool)
    (self : SwitchControllerPico σ) :
    ∃ s' w', self.init build registered World.boot = .ok (s', w') ∧
      w'.adapter = some { _provider := self._inputProvider } :=
  ⟨_, _, rfl, rfl⟩

/-- Claim C4. For every stub legacy controller whose `getSwitchReport` writes report `R`,
every rumble value `V`, every prior content `out` of the caller's buffer and every list
`calls` of rumble calls the stub has received so far:
`ControllerAdapter::getSwitchReport` leaves exactly `R` in the caller's report and makes
no rumble call; `ControllerAdapter::setRumble(V)` adds exactly one call, with value `V`,
to the stub's rumble calls; and the same holds for the `SwitchInputAdapter` that
`init()` builds around the `ControllerAdapter`, in either build and mode. -/
theorem adapter_delegates (R out : SwitchReport) (V : Bool) (calls : List Bool)
    (build : Build) (registered : Bool) (mode : Mode) :
    (ControllerAdapter.mk (stubController R)).getSwitchReport out calls = (R, calls) ∧
    (ControllerAdapter.mk (stubController R)).setRumble V calls = calls ++ [V] ∧
    ∃ s' w' a,
      (SwitchControllerPico.new
          (ControllerAdapter.mk (stubController R)).toSwitchInputProvider mode).init
        build registered World.boot = .ok (s', w') ∧
      w'.adapter = some a ∧
      a.toController.getSwitchReport out calls = (R, calls) ∧
      a.toController.setRumble V calls = calls ++ [V] :=
  ⟨rfl, rfl, _, _, _, rfl, rfl, rfl, rfl⟩

/-! ### Transport selection in `init()` -/

/-- What `init()` returns, for any build, mode and world. -/
theorem init_eq {σ : Type} (build : Build) (registered : Bool)
    (self : SwitchControllerPico σ) (w : World σ) :
    ∃ s' w', self.init build registered w = .ok (s', w') ∧
      s'._inputProvider = self._inputProvider ∧
      s'._mode = self._mode ∧
      s'._switchCommon = some
        (if build.SWITCH_BLUETOOTH = true ∧ self._mode = Mode.BLUETOOTH
          then SwitchCommon.SwitchBluetooth else SwitchCommon.SwitchUsb) ∧
      w'.calls = w.calls ++ [Call.SwitchCommon_init
        (if build.SWITCH_BLUETOOTH = true ∧ self._mode = Mode.BLUETOOTH
          then SwitchCommon.SwitchBluetooth else SwitchCommon.SwitchUsb) registered] := by
  refine ⟨_, _, rfl, rfl, rfl, ?_, ?_⟩ <;>
    cases hb : build.SWITCH_BLUETOOTH <;> cases hm : self._mode <;> simp [hb, hm]

/-- Claim C5, as stated, is refuted. In a build without `SWITCH_BLUETOOTH`, `init()` on a
dispatcher constructed with mode `BLUETOOTH` does not create the Bluetooth transport:
the transport it owns afterwards is `SwitchUsb`, so "Bluetooth transport iff
`m = BLUETOOTH`" fails. -/
theorem transport_matches_mode_counterexample :
    ∃ s' w',
      (SwitchControllerPico.new SimpleButtonInput.toSwitchInputProvider
          Mode.BLUETOOTH).init ⟨false⟩ true World.boot = .ok (s', w') ∧
      s'.getMode = Mode.BLUETOOTH ∧
      s'.getSwitchCommon = some SwitchCommon.SwitchUsb ∧
      ¬ (s'.getSwitchCommon = some SwitchCommon.SwitchBluetooth ↔
          s'.getMode = Mode.BLUETOOTH) := by
  refine ⟨_, _, rfl, rfl, rfl, ?_⟩
  intro h
  exact absurd (h.2 rfl) (by decide)

/-- Claim C5, amended. After `init()` on a `SwitchControllerPico` constructed with mode
`m`: in a build with `SWITCH_BLUETOOTH` defined the transport object it owns matches
`m` (`SwitchUsb` iff `m = USB`, `SwitchBluetooth` iff `m = BLUETOOTH`); in a build
without `SWITCH_BLUETOOTH` it is `SwitchUsb` for every `m`. -/
theorem transport_matches_mode {σ : Type} (p : SwitchInputProvider σ) (m : Mode)
    (registered : Bool) (w : World σ) :
    (∃ s' w', (SwitchControllerPico.new p m).init ⟨true⟩ registered w = .ok (s', w') ∧
      (s'.getSwitchCommon = some SwitchCommon.SwitchUsb ↔ m = Mode.USB) ∧
      (s'.getSwitchCommon = some SwitchCommon.SwitchBluetooth ↔ m = Mode.BLUETOOTH)) ∧
    (∃ s' w', (SwitchControllerPico.new p m).init ⟨false⟩ registered w = .ok (s', w') ∧
      s'.getSwitchCommon = some SwitchCommon.SwitchUsb) := by
  constructor
  · refine ⟨_, _, rfl, ?_, ?_⟩ <;>
      cases m <;> simp [SwitchControllerPico.getSwitchCommon, SwitchControllerPico.new]
  · exact ⟨_, _, rfl, rfl⟩

/-! ### `update()` -/

/-- What `update()` returns, for any build, dispatcher and world. -/
theorem update_eq {σ : Type} (build : Build) (d : SwitchControllerPico σ) (w : World σ) :
    d.update build w =
      .ok (d, if build.SWITCH_BLUETOOTH = true then w
              else { w with calls := w.calls ++ [Call.tud_task] }) := by
  cases hb : build.SWITCH_BLUETOOTH <;> simp [SwitchControllerPico.update, hb]

theorem tudTaskCount_init_call {σ : Type} (w : World σ) (t : SwitchCommon) (r : Bool) :
    tudTaskCount { w with calls := w.calls ++ [Call.SwitchCommon_init t r] }
      = tudTaskCount w := by
  simp [tudTaskCount]

theorem tudTaskCount_tud_task {σ : Type} (w : World σ) :
    tudTaskCount { w with calls := w.calls ++ [Call.tud_task] } = tudTaskCount w + 1 := by
  simp [tudTaskCount]

/-- Claim C6, the code at the failing input. For a dispatcher constructed in `USB` mode
and initialised (its transport is `SwitchUsb` in both builds): in a build without
`SWITCH_BLUETOOTH` a call of `update()` makes exactly one `tud_task()` call; in a build
with `SWITCH_BLUETOOTH` defined the same call makes none, and the world is left as
`init()` left it. -/
theorem update_usb_mode {σ : Type} (p : SwitchInputProvider σ) (registered : Bool)
    (w : World σ) :
    (∃ s' w', run ⟨false⟩ [Op.init registered, Op.update] (SwitchControllerPico.new p Mode.USB, w)
        = .ok (s', w') ∧
      s'.getSwitchCommon = some SwitchCommon.SwitchUsb ∧
      tudTaskCount w' = tudTaskCount w + 1) ∧
    (∃ s' w', run ⟨true⟩ [Op.init registered, Op.update] (SwitchControllerPico.new p Mode.USB, w)
        = .ok (s', w') ∧
      s'.getSwitchCommon = some SwitchCommon.SwitchUsb ∧
      tudTaskCount w' = tudTaskCount w ∧
      run ⟨true⟩ [Op.init registered] (SwitchControllerPico.new p Mode.USB, w)
        = .ok (s', w')) := by
  constructor
  · refine ⟨_, _, rfl, rfl, ?_⟩
    simp [tudTaskCount]
  · refine ⟨_, _, rfl, rfl, ?_, rfl⟩
    simp [tudTaskCount]

/-- Claim C7, as stated, is refuted. In a build with `SWITCH_BLUETOOTH` defined, on an
initialised dispatcher constructed in `BLUETOOTH` mode, `update()` signals no error and
changes nothing: the call is silently ignored. -/
theorem update_usage_error_counterexample :
    ∃ d w,
      run ⟨true⟩ [Op.init true]
        (SwitchControllerPico.new SimpleButtonInput.toSwitchInputProvider Mode.BLUETOOTH,
          World.boot) = .ok (d, w) ∧
      d.getMode = Mode.BLUETOOTH ∧
      d.getSwitchCommon = some SwitchCommon.SwitchBluetooth ∧
      d.update ⟨true⟩ w = .ok (d, w) ∧
      ¬ (signalsError (d.update ⟨true⟩ w) = true ↔ d.getMode = Mode.BLUETOOTH) := by
  refine ⟨_, _, rfl, rfl, rfl, rfl, ?_⟩
  intro h
  exact absurd (h.2 rfl) (by decide)

/-- Claim C7, amended. Invoking `update()` on a dispatcher whose mode is `BLUETOOTH` is
not detected: `update()` signals no error and returns normally with the dispatcher
unchanged, having done nothing in a build with `SWITCH_BLUETOOTH` defined and having
called `tud_task()` once in a build without it. -/
theorem update_bluetooth_mode {σ : Type} (build : Build) (d : SwitchControllerPico σ)
    (w : World σ) (_hmode : d.getMode = Mode.BLUETOOTH) :
    signalsError (d.update build w) = false ∧
    d.update build w =
      .ok (d, if build.SWITCH_BLUETOOTH = true then w
              else { w with calls := w.calls ++ [Call.tud_task] }) := by
  have h := update_eq build d w
  exact ⟨by rw [h]; rfl, h⟩

/-- Witness for `update_bluetooth_mode`: a freshly constructed `BLUETOOTH`-mode
dispatcher in a build with `SWITCH_BLUETOOTH` defined. -/
theorem update_bluetooth_mode_witness :
    (SwitchControllerPico.new SimpleButtonInput.toSwitchInputProvider
        Mode.BLUETOOTH).getMode = Mode.BLUETOOTH ∧
    signalsError
      ((SwitchControllerPico.new SimpleButtonInput.toSwitchInputProvider
        Mode.BLUETOOTH).update ⟨true⟩ World.boot) = false :=
  ⟨rfl, (update_bluetooth_mode ⟨true⟩
    (SwitchControllerPico.new SimpleButtonInput.toSwitchInputProvider Mode.BLUETOOTH)
    World.boot rfl).1⟩

/-! ### Failure of the transport's registration -/

/-- Claim C8, as stated, is refuted. With a failing device registration, `init()` signals no
error, and `getSwitchCommon()` is not null afterwards. -/
theorem init_failure_counterexample :
    ∃ s' w',
      (SwitchControllerPico.new SimpleButtonInput.toSwitchInputProvider Mode.USB).init
        ⟨false⟩ false World.boot = .ok (s', w') ∧
      w'.calls = [Call.SwitchCommon_init SwitchCommon.SwitchUsb false] ∧
      signalsError
        ((SwitchControllerPico.new SimpleButtonInput.toSwitchInputProvider Mode.USB).init
          ⟨false⟩ false World.boot) = false ∧
      s'.getSwitchCommon = some SwitchCommon.SwitchUsb ∧
      s'.getSwitchCommon ≠ none := by
  refine ⟨_, _, rfl, rfl, rfl, rfl, ?_⟩
  simp [SwitchControllerPico.getSwitchCommon, SwitchControllerPico.init,
    SwitchControllerPico.new]

/-- Claim C8, amended. `init()` has no failure path: whether or not the transport stack's
device registration succeeds, `init()` returns normally without reporting an error, and
`getSwitchCommon()` is non-null afterwards, the transport object having been stored
before its own `init` is called. -/
theorem init_always_returns {σ : Type} (build : Build) (registered : Bool)
    (d : SwitchControllerPico σ) (w : World σ) :
    signalsError (d.init build registered w) = false ∧
    ∃ s' w', d.init build registered w = .ok (s', w') ∧
      s'.getSwitchCommon ≠ none := by
  refine ⟨rfl, _, _, rfl, ?_⟩
  simp [SwitchControllerPico.getSwitchCommon]

/-! ### The mode is fixed at construction -/

/-- One application call returns normally and keeps the mode. -/
theorem step_mode {σ : Type} (build : Build) (op : Op)
    (s : SwitchControllerPico σ × World σ) :
    ∃ s', step build op s = .ok s' ∧ s'.1.getMode = s.1.getMode := by
  cases op with
  | init registered => exact ⟨_, rfl, rfl⟩
  | update => exact ⟨_, update_eq build s.1 s.2, rfl⟩

/-- Any finite sequence of application calls returns normally and keeps the mode. -/
theorem run_mode {σ : Type} (build : Build) (ops : List Op) :
    ∀ s : SwitchControllerPico σ × World σ,
      ∃ s', run build ops s = .ok s' ∧ s'.1.getMode = s.1.getMode := by
  induction ops with
  | nil => intro s; exact ⟨s, rfl, rfl⟩
  | cons op ops ih =>
    intro s
    obtain ⟨s1, h1, m1⟩ := step_mode build op s
    obtain ⟨s2, h2, m2⟩ := ih s1
    refine ⟨s2, ?_, m2.trans m1⟩
    simp only [run, h1]
    exact h2

/-- Claim C9. For every build, every mode `m`, every input provider and every finite
sequence of `init()` and `update()` calls on a `SwitchControllerPico` constructed with
mode `m`, the sequence runs to its end and `getMode()` then returns `m`. -/
theorem getMode_fixed {σ : Type} (build : Build) (p : SwitchInputProvider σ) (m : Mode)
    (w : World σ) (ops : List Op) :
    ∃ s', run build ops (SwitchControllerPico.new p m, w) = .ok s' ∧ s'.1.getMode = m :=
  run_mode build ops (SwitchControllerPico.new p m, w)

/-! ### Timing of `AutoPressInput` -/

/-- Without wrap-around the 32-bit difference is the difference. -/
theorem sub32_eq (t l : Nat) (hl : l ≤ t) (ht : t < 2 ^ 32) : sub32 t l = t - l := by
  unfold sub32
  omega

/-- A 32-bit difference below `d` puts `t` less than `d` after `l`. -/
theorem lt_add_of_sub32_lt (t l d : Nat) (ht : t < 2 ^ 32) (h : sub32 t l < d) :
    t < l + d := by
  unfold sub32 at h
  omega

/-- The four paths of `AutoPressInput::getSwitchReport`: release, hold, press, idle. -/
theorem AutoPressInput_step (t : Nat) (s : AutoPressInput) (buf : SwitchReport) :
    (s._buttonPressed = true ∧ 100 ≤ sub32 t s._lastPressTime ∧
      (AutoPressInput.getSwitchReport t s buf).1 = { s with _buttonPressed := false } ∧
      (AutoPressInput.getSwitchReport t s buf).2.buttons.b0 = 0) ∨
    (s._buttonPressed = true ∧ sub32 t s._lastPressTime < 100 ∧
      (AutoPressInput.getSwitchReport t s buf).1 = s ∧
      (AutoPressInput.getSwitchReport t s buf).2.buttons.b0 = 8) ∨
    (s._buttonPressed = false ∧ 5000 ≤ sub32 t s._lastPressTime ∧
      (AutoPressInput.getSwitchReport t s buf).1
        = { _lastPressTime := t, _buttonPressed := true } ∧
      (AutoPressInput.getSwitchReport t s buf).2.buttons.b0 = 8) ∨
    (s._buttonPressed = false ∧ sub32 t s._lastPressTime < 5000 ∧
      (AutoPressInput.getSwitchReport t s buf).1 = s ∧
      (AutoPressInput.getSwitchReport t s buf).2.buttons.b0 = 0) := by
  cases hp : s._buttonPressed
  · by_cases h : 5000 ≤ sub32 t s._lastPressTime
    · right; right; left
      refine ⟨rfl, h, ?_, ?_⟩ <;>
        simp [AutoPressInput.getSwitchReport, hp, h, AutoPressInput.PRESS_INTERVAL_MS]
      decide
    · right; right; right
      refine ⟨rfl, by omega, ?_, ?_⟩ <;>
        simp [AutoPressInput.getSwitchReport, hp, h, AutoPressInput.PRESS_INTERVAL_MS]
  · by_cases h : 100 ≤ sub32 t s._lastPressTime
    · left
      refine ⟨rfl, h, ?_, ?_⟩ <;>
        simp [AutoPressInput.getSwitchReport, hp, h, AutoPressInput.PRESS_DURATION_MS]
    · right; left
      refine ⟨rfl, by omega, ?_, ?_⟩ <;>
        simp [AutoPressInput.getSwitchReport, hp, h, AutoPressInput.PRESS_DURATION_MS]
      decide

/-- What one call does to the time of the last press, when the clock has not wrapped:
the stored time never decreases and never passes the clock, and a press begins only
`5000` ms or more after the stored time, which then becomes the time of the call. -/
theorem AutoPressInput_step_press (t : Nat) (s : AutoPressInput) (buf : SwitchReport)
    (hl : s._lastPressTime ≤ t) (ht : t < 2 ^ 32) :
    (s._lastPressTime ≤ (AutoPressInput.getSwitchReport t s buf).1._lastPressTime ∧
      (AutoPressInput.getSwitchReport t s buf).1._lastPressTime ≤ t) ∧
    ((!s._buttonPressed && (AutoPressInput.getSwitchReport t s buf).1._buttonPressed) = true →
      s._lastPressTime + 5000 ≤ t ∧
      (AutoPressInput.getSwitchReport t s buf).1._lastPressTime = t) := by
  have hsub := sub32_eq t s._lastPressTime hl ht
  rcases AutoPressInput_step t s buf with ⟨hp, _, h1, _⟩ | ⟨hp, _, h1, _⟩ |
    ⟨hp, h, h1, _⟩ | ⟨hp, _, h1, _⟩
  · rw [h1]
    exact ⟨⟨le_refl _, hl⟩, by simp [hp]⟩
  · rw [h1]
    exact ⟨⟨le_refl _, hl⟩, by simp [hp]⟩
  · rw [h1]
    exact ⟨⟨hl, le_refl _⟩, fun _ => ⟨by omega, rfl⟩⟩
  · rw [h1]
    exact ⟨⟨le_refl _, hl⟩, by simp [hp]⟩

/-- Presses are `5000` ms apart, from any state whose stored time is not ahead of the
clock: a press begins at least `5000` ms after the stored time and after every earlier
press of the run. -/
theorem trace_press_spacing (calls : List (Nat × SwitchReport)) :
    ∀ s : AutoPressInput,
      (calls.map Prod.fst).Pairwise (fun a b => a ≤ b) →
      (∀ c ∈ calls, s._lastPressTime ≤ c.1 ∧ c.1 < 2 ^ 32) →
      ∀ (j : Nat) (e : AutoPressCall),
        (AutoPressInput.trace calls s)[j]? = some e → e.pressBegins = true →
        s._lastPressTime + 5000 ≤ e.time ∧
        ∀ (i : Nat) (d : AutoPressCall), i < j →
          (AutoPressInput.trace calls s)[i]? = some d →
          d.pressBegins = true → d.time + 5000 ≤ e.time := by
  induction calls with
  | nil =>
    intro s _ _ j e h
    simp [AutoPressInput.trace] at h
  | cons c cs ih =>
    intro s hmono hb j e hj hpress
    obtain ⟨hcl, hct⟩ := hb c (List.mem_cons_self _ _)
    rw [List.map_cons, List.pairwise_cons] at hmono
    obtain ⟨⟨hL1, hL2⟩, hbegin⟩ := AutoPressInput_step_press c.1 s c.2 hcl hct
    have hb1 : ∀ c' ∈ cs,
        (AutoPressInput.getSwitchReport c.1 s c.2).1._lastPressTime ≤ c'.1 ∧
          c'.1 < 2 ^ 32 := by
      intro c' hc'
      have h1 := hmono.1 c'.1 (List.mem_map_of_mem Prod.fst hc')
      exact ⟨le_trans hL2 h1, (hb c' (List.mem_cons_of_mem _ hc')).2⟩
    cases j with
    | zero =>
      simp only [AutoPressInput.trace, List.getElem?_cons_zero, Option.some.injEq] at hj
      subst hj
      refine ⟨(hbegin hpress).1, ?_⟩
      intro i d hi
      omega
    | succ j =>
      simp only [AutoPressInput.trace, List.getElem?_cons_succ] at hj
      obtain ⟨h5, hprev⟩ := ih _ hmono.2 hb1 j e hj hpress
      refine ⟨by omega, ?_⟩
      intro i d hi hd hdpress
      cases i with
      | zero =>
        simp only [AutoPressInput.trace, List.getElem?_cons_zero, Option.some.injEq] at hd
        subst hd
        have h := (hbegin hdpress).2
        show c.1 + 5000 ≤ e.time
        omega
      | succ i =>
        simp only [AutoPressInput.trace, List.getElem?_cons_succ] at hd
        exact hprev i d (by omega) hd hdpress

/-- What one call says about the A bit: the bit is set only when a press begins at this
call or the button was already pressed and the call comes less than `100` ms after the
stored time; and the button is pressed after the call only when a press begins at it
(the stored time becoming the time of the call) or the object is left untouched. -/
theorem AutoPressInput_step_bit (t : Nat) (s : AutoPressInput) (buf : SwitchReport)
    (ht : t < 2 ^ 32) :
    (((AutoPressInput.getSwitchReport t s buf).2.buttons.b0 &&& 0x08 == 0x08) = true →
      (!s._buttonPressed && (AutoPressInput.getSwitchReport t s buf).1._buttonPressed) = true ∨
      (s._buttonPressed = true ∧ t < s._lastPressTime + 100)) ∧
    ((AutoPressInput.getSwitchReport t s buf).1._buttonPressed = true →
      ((!s._buttonPressed && (AutoPressInput.getSwitchReport t s buf).1._buttonPressed) = true ∧
        (AutoPressInput.getSwitchReport t s buf).1._lastPressTime = t) ∨
      (s._buttonPressed = true ∧ (AutoPressInput.getSwitchReport t s buf).1 = s)) := by
  rcases AutoPressInput_step t s buf with ⟨hp, _, h1, h2⟩ | ⟨hp, h, h1, h2⟩ |
    ⟨hp, _, h1, h2⟩ | ⟨hp, _, h1, h2⟩
  · rw [h1, h2]
    exact ⟨fun h0 => absurd h0 (by decide), by simp⟩
  · rw [h1, h2]
    exact ⟨fun _ => Or.inr ⟨hp, lt_add_of_sub32_lt t _ 100 ht h⟩, fun _ => Or.inr ⟨hp, rfl⟩⟩
  · rw [h1, h2]
    exact ⟨fun _ => Or.inl (by simp [hp]), fun _ => Or.inl ⟨by simp [hp], rfl⟩⟩
  · rw [h1, h2]
    exact ⟨fun h0 => absurd h0 (by decide), by simp [hp]⟩

/-- Every report with the A bit set comes from the call that begins a press, or less
than `100` ms after the latest press of the run began, or, when the run starts with the
button already pressed and no press has begun since, less than `100` ms after the
stored time. -/
theorem trace_a_bit (calls : List (Nat × SwitchReport)) :
    ∀ s : AutoPressInput,
      (∀ c ∈ calls, c.1 < 2 ^ 32) →
      ∀ (j : Nat) (e : AutoPressCall),
        (AutoPressInput.trace calls s)[j]? = some e → e.aBitSet = true →
        e.pressBegins = true ∨
        (∃ (i : Nat) (d : AutoPressCall), i < j ∧
          (AutoPressInput.trace calls s)[i]? = some d ∧ d.pressBegins = true ∧
          (∀ (k : Nat) (c : AutoPressCall), i < k → k < j →
            (AutoPressInput.trace calls s)[k]? = some c → c.pressBegins = false) ∧
          e.time < d.time + 100) ∨
        (s._buttonPressed = true ∧
          (∀ (k : Nat) (c : AutoPressCall), k < j →
            (AutoPressInput.trace calls s)[k]? = some c → c.pressBegins = false) ∧
          e.time < s._lastPressTime + 100) := by
  induction calls with
  | nil =>
    intro s _ j e h
    simp [AutoPressInput.trace] at h
  | cons c cs ih =>
    intro s hb j e hj hbit
    have hct := hb c (List.mem_cons_self _ _)
    obtain ⟨hset, hafter⟩ := AutoPressInput_step_bit c.1 s c.2 hct
    have hb1 : ∀ c' ∈ cs, c'.1 < 2 ^ 32 := fun c' hc' => hb c' (List.mem_cons_of_mem _ hc')
    cases j with
    | zero =>
      simp only [AutoPressInput.trace, List.getElem?_cons_zero, Option.some.injEq] at hj
      subst hj
      rcases hset hbit with h | ⟨hp, hlt⟩
      · exact Or.inl h
      · refine Or.inr (Or.inr ⟨hp, ?_, hlt⟩)
        intro k c hk
        omega
    | succ j =>
      simp only [AutoPressInput.trace, List.getElem?_cons_succ] at hj
      rcases ih _ hb1 j e hj hbit with h | ⟨i, d, hi, hd, hdp, hnone, hlt⟩ | ⟨hp1, hnone, hlt⟩
      · exact Or.inl h
      · refine Or.inr (Or.inl ⟨i + 1, d, by omega, ?_, hdp, ?_, hlt⟩)
        · simp only [AutoPressInput.trace, List.getElem?_cons_succ]
          exact hd
        · intro k c hik hkj hc
          cases k with
          | zero => omega
          | succ k =>
            simp only [AutoPressInput.trace, List.getElem?_cons_succ] at hc
            exact hnone k c (by omega) (by omega) hc
      · rcases hafter hp1 with ⟨hbeg, hL⟩ | ⟨hp, hsame⟩
        · refine Or.inr (Or.inl ⟨0,
            { time := c.1
              before := s
              after := (AutoPressInput.getSwitchReport c.1 s c.2).1
              report := (AutoPressInput.getSwitchReport c.1 s c.2).2 },
            by omega, ?_, hbeg, ?_, ?_⟩)
          · simp only [AutoPressInput.trace, List.getElem?_cons_zero]
          · intro k c hik hkj hc
            cases k with
            | zero => omega
            | succ k =>
              simp only [AutoPressInput.trace, List.getElem?_cons_succ] at hc
              exact hnone k c (by omega) hc
          · show e.time < c.1 + 100
            omega
        · refine Or.inr (Or.inr ⟨hp, ?_, ?_⟩)
          · intro k c0 hkj hc
            cases k with
            | zero =>
              simp only [AutoPressInput.trace, List.getElem?_cons_zero,
                Option.some.injEq] at hc
              subst hc
              simp [AutoPressCall.pressBegins, hp]
            | succ k =>
              simp only [AutoPressInput.trace, List.getElem?_cons_succ] at hc
              exact hnone k c0 (by omega) hc
          · rw [hsame] at hlt
            exact hlt

/-- Claim C11. For an `AutoPressInput` started in its initial state
(`_lastPressTime = 0`, not pressed) and any sequence of `getSwitchReport` calls at
non-decreasing millisecond times below `2 ^ 32`: a press of A begins only at a call
time at least `5000` ms after boot and at least `5000` ms after every earlier call at
which a press began; and every report with the A bit (`0x08` of `buttons[0]`) set is
produced either at the call that begins a press or less than `100` ms after the call
at which the current press (the latest one before it) began. -/
theorem auto_press_timing (calls : List (Nat × SwitchReport))
    (hmono : (calls.map Prod.fst).Pairwise (fun a b => a ≤ b))
    (hwrap : ∀ c ∈ calls, c.1 < 2 ^ 32) :
    (∀ (j : Nat) (e : AutoPressCall),
      (AutoPressInput.trace calls AutoPressInput.new)[j]? = some e →
      e.pressBegins = true →
        5000 ≤ e.time ∧
        ∀ (i : Nat) (d : AutoPressCall), i < j →
          (AutoPressInput.trace calls AutoPressInput.new)[i]? = some d →
          d.pressBegins = true → d.time + 5000 ≤ e.time) ∧
    (∀ (j : Nat) (e : AutoPressCall),
      (AutoPressInput.trace calls AutoPressInput.new)[j]? = some e →
      e.aBitSet = true →
        e.pressBegins = true ∨
        ∃ (i : Nat) (d : AutoPressCall), i < j ∧
          (AutoPressInput.trace calls AutoPressInput.new)[i]? = some d ∧
          d.pressBegins = true ∧
          (∀ (k : Nat) (c : AutoPressCall), i < k → k < j →
            (AutoPressInput.trace calls AutoPressInput.new)[k]? = some c →
            c.pressBegins = false) ∧
          e.time < d.time + 100) := by
  constructor
  · intro j e hj hpress
    have hb : ∀ c ∈ calls, AutoPressInput.new._lastPressTime ≤ c.1 ∧ c.1 < 2 ^ 32 :=
      fun c hc => ⟨Nat.zero_le _, hwrap c hc⟩
    obtain ⟨h5, hprev⟩ := trace_press_spacing calls AutoPressInput.new hmono hb j e hj hpress
    refine ⟨?_, hprev⟩
    have h0 : AutoPressInput.new._lastPressTime = 0 := rfl
    omega
  · intro j e hj hbit
    rcases trace_a_bit calls AutoPressInput.new hwrap j e hj hbit with h | h | ⟨hp, _⟩
    · exact Or.inl h
    · exact Or.inr h
    · exact absurd hp (by decide)

/-- The sample run, call by call: time, whether a press begins, whether the A bit is
set. The first press begins at 5000 ms, is held at 5050 ms, released at 5100 ms, and
the second press begins at 10100 ms. -/
theorem sampleCalls_trace :
    (AutoPressInput.trace AutoPressInput.sampleCalls AutoPressInput.new).map
        (fun e => (e.time, e.pressBegins, e.aBitSet))
      = [(0, false, false), (5000, true, true), (5050, false, true),
         (5100, false, false), (10100, true, true)] := by
  decide

/-- Witness for `auto_press_timing`: the sample run. -/
theorem auto_press_timing_witness :
    ((AutoPressInput.sampleCalls.map Prod.fst).Pairwise (fun a b => a ≤ b) ∧
      ∀ c ∈ AutoPressInput.sampleCalls, c.1 < 2 ^ 32) ∧
    ((∀ (j : Nat) (e : AutoPressCall),
      (AutoPressInput.trace AutoPressInput.sampleCalls AutoPressInput.new)[j]? = some e →
      e.pressBegins = true →
        5000 ≤ e.time ∧
        ∀ (i : Nat) (d : AutoPressCall), i < j →
          (AutoPressInput.trace AutoPressInput.sampleCalls AutoPressInput.new)[i]? = some d →
          d.pressBegins = true → d.time + 5000 ≤ e.time) ∧
    (∀ (j : Nat) (e : AutoPressCall),
      (AutoPressInput.trace AutoPressInput.sampleCalls AutoPressInput.new)[j]? = some e →
      e.aBitSet = true →
        e.pressBegins = true ∨
        ∃ (i : Nat) (d : AutoPressCall), i < j ∧
          (AutoPressInput.trace AutoPressInput.sampleCalls AutoPressInput.new)[i]? = some d ∧
          d.pressBegins = true ∧
          (∀ (k : Nat) (c : AutoPressCall), i < k → k < j →
            (AutoPressInput.trace AutoPressInput.sampleCalls AutoPressInput.new)[k]? = some c →
            c.pressBegins = false) ∧
          e.time < d.time + 100)) :=
  ⟨⟨by decide, by decide⟩,
    auto_press_timing AutoPressInput.sampleCalls (by decide) (by decide)⟩

end RetroPicoSwitch
